import Mathlib

/-!
Verification of the connection-supervisor in
`SH_discord_bot_split/main.py` (`_run`, `_diagnose_gateway`,
`_maybe_force_ipv4`).

The supervisor loop is embedded shallowly: the nondeterministic parts of
one attempt (which task wins the race under the deadline, what exception
the client task produces, the results of the diagnostic sub-probes) are
collected in an `AttemptEnv`; the loop itself is a structural recursion
over the list of per-attempt environments, producing a record per attempt
(outcome classification, whether cleanup ran, whether the watchdog task
was resolved, the backoff sleep taken) and a terminal result.
-/

namespace SHBot

/-- Exception classes that can come out of the client task or be raised
internally by the supervisor body, mirroring the `except` clauses of
`_run`: `discord.LoginFailure`, `discord.PrivilegedIntentsRequired`,
`asyncio.TimeoutError`, `RuntimeError`, and any other `Exception`. -/
inductive ClientError where
  | loginFailure
  | privilegedIntents
  | timeoutErr
  | runtimeErr (msg : String)
  | otherErr (msg : String)
deriving DecidableEq, Repr

/-- The message of the `RuntimeError` raised at line 147 when the client
task finishes cleanly before READY. -/
def earlyStopMsg : String := "Discord client stopped before READY"

instance {ε α : Type} [DecidableEq ε] [DecidableEq α] :
    DecidableEq (Except ε α) := fun a b =>
  match a, b with
  | .ok x, .ok y =>
      if h : x = y then .isTrue (by rw [h])
      else .isFalse (fun hh => by cases hh; exact h rfl)
  | .error x, .error y =>
      if h : x = y then .isTrue (by rw [h])
      else .isFalse (fun hh => by cases hh; exact h rfl)
  | .ok _, .error _ => .isFalse (fun hh => by cases hh)
  | .error _, .ok _ => .isFalse (fun hh => by cases hh)

/-- Result of one diagnostic sub-probe: `Except.error` is the exception
the inner `try` block of the probe catches, `Except.ok` the value it
logs. -/
structure DiagEnv where
  dnsGateway : Except String String
  dnsDiscord : Except String String
  tcpProbe : Except String String
  httpProbe : Except String Nat
deriving DecidableEq, Repr

/-- A log line emitted by `_diagnose_gateway`: the tag of the sub-probe
plus either its success payload or the caught error. -/
structure DiagLog where
  tag : String
  result : Except String String
deriving DecidableEq, Repr

/-- Run one sub-probe: a failure is caught inside the probe and becomes
an error log line; it is never re-raised (mirrors the inner
`try/except Exception` around each sub-probe in `_diagnose_gateway`). -/
def runProbe (tag : String) (r : Except String String) : DiagLog :=
  { tag := tag, result := r }

/-- Shallow embedding of `_diagnose_gateway` (lines 79-119): resolve the
two hostnames, run the TCP probe, run the HTTP probe; every sub-probe
failure is caught and logged, and each sub-probe runs regardless of the
previous ones.  The function is total: it never propagates an error. -/
def diagnoseGateway (env : DiagEnv) : List DiagLog :=
  [ runProbe "DNS gateway.discord.gg" env.dnsGateway
  , runProbe "DNS discord.com" env.dnsDiscord
  , runProbe "TCP gateway.discord.gg:443" env.tcpProbe
  , runProbe "GET /gateway" (env.httpProbe.map (fun s => toString s)) ]

/-- Which task completed the `asyncio.wait(..., FIRST_COMPLETED)` race
within `timeout_s`, and with what result.

* `timedOut`: `done` is empty (line 139).
* `startFirst exc readyAlsoDone`: `start_task ∈ done` (line 143);
  `exc` is `start_task.exception()`; `readyAlsoDone` records whether the
  watchdog task happened to be finished as well.
* `readyFirst startResult`: the watchdog completed first; `startResult`
  is what the subsequent `await start_task` (line 156) produces
  (`none` = clean return). -/
inductive RaceResult where
  | timedOut
  | startFirst (exc : Option ClientError) (readyAlsoDone : Bool)
  | readyFirst (startResult : Option ClientError)
deriving DecidableEq, Repr

/-- Everything one iteration of the `while True` loop observes from the
outside world. -/
structure AttemptEnv where
  diag : DiagEnv
  race : RaceResult
deriving DecidableEq, Repr

/-- The classification an attempt ends with, as decided by the `except`
chain of `_run` (lines 159-174) or by the success path (line 157). -/
inductive AttemptOutcome where
  | success
  | fatal (e : ClientError)
  | retryTimeout
  | retryOther (e : ClientError)
deriving DecidableEq, Repr

/-- The `except` chain, in source order: `discord.LoginFailure` and
`discord.PrivilegedIntentsRequired` re-raise (fatal),
`asyncio.TimeoutError` is the timeout class, any other `Exception` is
retryable. -/
def classify : ClientError → AttemptOutcome
  | .loginFailure => .fatal .loginFailure
  | .privilegedIntents => .fatal .privilegedIntents
  | .timeoutErr => .retryTimeout
  | e => .retryOther e

/-- What one loop body does with its environment before cleanup:
the outcome classification and whether the watchdog task was resolved
(completed, or cancelled by line 153) by the time the body finished. -/
structure StepResult where
  outcome : AttemptOutcome
  watchdogResolved : Bool
deriving DecidableEq, Repr

/-- One iteration of the `try` block (lines 132-174).

* Timeout (line 139-140): raise `TimeoutError`; the watchdog was not in
  `done`, and nothing cancels it.
* `start_task` first (lines 143-147): raise its exception, or the
  early-stop `RuntimeError`; the watchdog is only resolved if it
  happened to have completed too — nothing cancels it.
* watchdog first (lines 149-157): it is done (it completed), so the
  `if not ready_task.done()` guard at line 152 leaves it resolved;
  then `await start_task`, whose clean return is success and whose
  exception goes through the same `except` chain. -/
def attemptStep (env : AttemptEnv) : StepResult :=
  match env.race with
  | .timedOut => { outcome := classify .timeoutErr, watchdogResolved := false }
  | .startFirst exc readyAlsoDone =>
      match exc with
      | some e => { outcome := classify e, watchdogResolved := readyAlsoDone }
      | none =>
          { outcome := classify (.runtimeErr earlyStopMsg)
          , watchdogResolved := readyAlsoDone }
  | .readyFirst startResult =>
      match startResult with
      | none => { outcome := .success, watchdogResolved := true }
      | some e => { outcome := classify e, watchdogResolved := true }

/-- Configuration read from the environment at the top of `_run`:
`DISCORD_CONNECT_RETRIES` (`0` = unbounded) and
`DISCORD_CONNECT_BACKOFF_MAX`. -/
structure Config where
  retries : Nat
  backoffMax : Rat
deriving DecidableEq, Repr

/-- The per-attempt record the embedding produces so that the claims can
inspect a run: the attempt number, the diagnostics log, the outcome, the
watchdog/cleanup bookkeeping, and the backoff sleep performed after the
attempt (`none` when the loop body ended without `await asyncio.sleep`). -/
structure AttemptRecord where
  number : Nat
  diagLogs : List DiagLog
  outcome : AttemptOutcome
  watchdogResolved : Bool
  cleanupRun : Bool
  sleptFor : Option Rat
deriving DecidableEq, Repr

/-- How a (finite prefix of a) run ends. -/
inductive TermKind where
  | success
  | propagated (e : ClientError)
  | retriesExceeded
  | stillRunning (attemptsSoFar : Nat) (backoff : Rat)
deriving DecidableEq, Repr

/-- True when the outcome falls through the `except` chain into the
retry path (lines 168-174): timeout or any non-fatal exception. -/
def AttemptOutcome.isRetryable : AttemptOutcome → Bool
  | .retryTimeout => true
  | .retryOther _ => true
  | _ => false

/-- The `while True` loop of `_run` (lines 124-192), with the loop state
`attempt` and `backoff` explicit.  One list element of `envs` feeds one
iteration; when the list is exhausted the run is still going
(`stillRunning`).

Per iteration: `attempt += 1`, run diagnostics, race the tasks
(`attemptStep`); on success return; on a fatal classification re-raise
without the cleanup block (the `raise` at lines 161/167 skips lines
176-192); otherwise run the cleanup (`client.close()` and
`start_task.cancel()`, errors swallowed), check
`retries_env > 0 and attempt >= retries_env` (line 186), and either
raise `RuntimeError("Exceeded DISCORD_CONNECT_RETRIES")` or sleep
`min(backoff, backoff_max)` and double the backoff capped at
`backoff_max`. -/
def runAux (cfg : Config) : Nat → Rat → List AttemptEnv →
    List AttemptRecord × TermKind
  | attempt, backoff, [] => ([], .stillRunning attempt backoff)
  | attempt, backoff, env :: rest =>
      let n := attempt + 1
      let logs := diagnoseGateway env.diag
      let step := attemptStep env
      match step.outcome with
      | .success =>
          ([{ number := n, diagLogs := logs, outcome := .success
            , watchdogResolved := step.watchdogResolved
            , cleanupRun := false, sleptFor := none }], .success)
      | .fatal e =>
          ([{ number := n, diagLogs := logs, outcome := .fatal e
            , watchdogResolved := step.watchdogResolved
            , cleanupRun := false, sleptFor := none }], .propagated e)
      | o =>
          if 0 < cfg.retries ∧ cfg.retries ≤ n then
            ([{ number := n, diagLogs := logs, outcome := o
              , watchdogResolved := step.watchdogResolved
              , cleanupRun := true, sleptFor := none }], .retriesExceeded)
          else
            let sleep := min backoff cfg.backoffMax
            let rec_ := runAux cfg n (min (backoff * 2) cfg.backoffMax) rest
            ({ number := n, diagLogs := logs, outcome := o
             , watchdogResolved := step.watchdogResolved
             , cleanupRun := true, sleptFor := some sleep } :: rec_.1, rec_.2)

/-- The supervisor loop of `_run` from its initial state: `attempt = 0`,
`backoff = 2.0` (lines 121-122). -/
def run (cfg : Config) (envs : List AttemptEnv) :
    List AttemptRecord × TermKind :=
  runAux cfg 0 2 envs

/-- Shallow embedding of `_maybe_force_ipv4` (lines 48-61): the strings
whose lowercase form enables the IPv4 override. -/
def truthyValues : List String := ["1", "true", "yes", "on"]

/-- The DNS-resolver state `_maybe_force_ipv4` acts on:  either the
process default `socket.getaddrinfo` or the IPv4-pinning wrapper. -/
inductive Resolver where
  | system
  | ipv4Only
deriving DecidableEq, Repr

/-- Character-wise lowercasing, the embedding of `str.lower()` for the
ASCII strings this flag compares against. -/
def lowerStr (s : String) : String := ⟨s.data.map Char.toLower⟩

/-- `_maybe_force_ipv4`: read `DISCORD_FORCE_IPV4` (default `"0"` when
unset), lowercase it, and patch the resolver exactly when the result is
in `{"1", "true", "yes", "on"}`; otherwise leave the resolver as is. -/
def maybeForceIPv4 (envVar : Option String) (r : Resolver) : Resolver :=
  if lowerStr (envVar.getD "0") ∈ truthyValues then .ipv4Only else r

/-- An attempt environment is retryable when its classification falls
through to the retry path. -/
def isRetryableEnv (e : AttemptEnv) : Prop :=
  (attemptStep e).outcome.isRetryable = true

instance (e : AttemptEnv) : Decidable (isRetryableEnv e) := by
  unfold isRetryableEnv; infer_instance

/-- A diagnostics environment where every sub-probe succeeds. -/
def dOK : DiagEnv :=
  { dnsGateway := .ok "162.159.136.234", dnsDiscord := .ok "162.159.128.233"
  , tcpProbe := .ok "OK", httpProbe := .ok 200 }

/-- Concrete attempt: nothing completes before the deadline. -/
def eTO : AttemptEnv := { diag := dOK, race := .timedOut }

/-- Concrete attempt: the client task raises `discord.LoginFailure`. -/
def eLogin : AttemptEnv :=
  { diag := dOK, race := .startFirst (some .loginFailure) false }

/-- Concrete attempt: readiness is observed, then the client task raises
a generic exception. -/
def eReadyBoom : AttemptEnv :=
  { diag := dOK, race := .readyFirst (some (.otherErr "boom")) }

/-- Concrete attempt: readiness is observed and the client task later
returns cleanly. -/
def eReadyOK : AttemptEnv := { diag := dOK, race := .readyFirst none }

/-- Concrete attempt: the client task stops cleanly before READY. -/
def eEarly : AttemptEnv := { diag := dOK, race := .startFirst none false }

/- ------------------------------------------------------------------
Helper lemmas about the supervisor loop.
------------------------------------------------------------------- -/

/-- Every iteration of the loop emits a head record carrying the next
attempt number. -/
theorem runAux_head_number (cfg : Config) (env : AttemptEnv)
    (rest : List AttemptEnv) (a : Nat) (b : Rat) :
    ((runAux cfg a b (env :: rest)).1[0]?).map
      (fun r => r.number) = some (a + 1) := by
  rcases hstep : (attemptStep env).outcome with _ | e | _ | e <;>
    simp [runAux, hstep] <;> split <;> simp

/-- The cleanup block (lines 176-184) runs exactly on the retryable
outcomes: the success path returns before it, and the fatal handlers
re-raise past it. -/
theorem runAux_cleanup_iff (cfg : Config) :
    ∀ (envs : List AttemptEnv) (a : Nat) (b : Rat) (rec : AttemptRecord),
      rec ∈ (runAux cfg a b envs).1 →
      (rec.cleanupRun = true ↔ rec.outcome.isRetryable = true) := by
  intro envs
  induction envs with
  | nil => intro a b rec h; simp [runAux] at h
  | cons env rest ih =>
    intro a b rec h
    rcases hstep : (attemptStep env).outcome with _ | e | _ | e
    · simp [runAux, hstep] at h
      simp [h, AttemptOutcome.isRetryable]
    · simp [runAux, hstep] at h
      simp [h, AttemptOutcome.isRetryable]
    · by_cases hcond : 0 < cfg.retries ∧ cfg.retries ≤ a + 1
      · simp [runAux, hstep, hcond] at h
        simp [h, AttemptOutcome.isRetryable]
      · simp [runAux, hstep, hcond] at h
        rcases h with h | h
        · simp [h, AttemptOutcome.isRetryable]
        · exact ih (a + 1) (min (b * 2) cfg.backoffMax) rec h
    · by_cases hcond : 0 < cfg.retries ∧ cfg.retries ≤ a + 1
      · simp [runAux, hstep, hcond] at h
        simp [h, AttemptOutcome.isRetryable]
      · simp [runAux, hstep, hcond] at h
        rcases h with h | h
        · simp [h, AttemptOutcome.isRetryable]
        · exact ih (a + 1) (min (b * 2) cfg.backoffMax) rec h

/-- The backoff invariant: whenever the record at index `i` of a run
performed a backoff sleep, that sleep was
`min (b * 2 ^ i) backoff_max` where `b` is the backoff value the loop
was entered with. -/
theorem runAux_sleep_eq (cfg : Config) (hc : 0 ≤ cfg.backoffMax) :
    ∀ (envs : List AttemptEnv) (a : Nat) (b : Rat) (i : Nat)
      (rec : AttemptRecord) (d : Rat),
      (runAux cfg a b envs).1[i]? = some rec →
      rec.sleptFor = some d →
      d = min (b * 2 ^ i) cfg.backoffMax := by
  intro envs
  induction envs with
  | nil => intro a b i rec d h1 h2; simp [runAux] at h1
  | cons env rest ih =>
    intro a b i rec d h1 h2
    rcases hstep : (attemptStep env).outcome with _ | e | _ | e
    · simp [runAux, hstep] at h1
      rcases i with _ | j
      · simp at h1; rw [← h1] at h2; simp at h2
      · simp at h1
    · simp [runAux, hstep] at h1
      rcases i with _ | j
      · simp at h1; rw [← h1] at h2; simp at h2
      · simp at h1
    · by_cases hcond : 0 < cfg.retries ∧ cfg.retries ≤ a + 1
      · simp [runAux, hstep, hcond] at h1
        rcases i with _ | j
        · simp at h1; rw [← h1] at h2; simp at h2
        · simp at h1
      · simp [runAux, hstep, hcond] at h1
        rcases i with _ | j
        · simp at h1; rw [← h1] at h2
          simp at h2
          simp [← h2, pow_zero, mul_one]
        · simp at h1
          have hrec := ih (a + 1) (min (b * 2) cfg.backoffMax) j rec d h1 h2
          rw [hrec, min_mul_of_nonneg _ _ (le_of_lt (pow_pos (by norm_num : (0:Rat) < 2) j)),
            min_assoc]
          have h2j : (1:Rat) ≤ 2 ^ j := one_le_pow₀ (by norm_num)
          have : min (cfg.backoffMax * 2 ^ j) cfg.backoffMax = cfg.backoffMax :=
            min_eq_right (le_mul_of_one_le_right hc h2j)
          rw [this, pow_succ]
          ring_nf
    · by_cases hcond : 0 < cfg.retries ∧ cfg.retries ≤ a + 1
      · simp [runAux, hstep, hcond] at h1
        rcases i with _ | j
        · simp at h1; rw [← h1] at h2; simp at h2
        · simp at h1
      · simp [runAux, hstep, hcond] at h1
        rcases i with _ | j
        · simp at h1; rw [← h1] at h2
          simp at h2
          simp [← h2, pow_zero, mul_one]
        · simp at h1
          have hrec := ih (a + 1) (min (b * 2) cfg.backoffMax) j rec d h1 h2
          rw [hrec, min_mul_of_nonneg _ _ (le_of_lt (pow_pos (by norm_num : (0:Rat) < 2) j)),
            min_assoc]
          have h2j : (1:Rat) ≤ 2 ^ j := one_le_pow₀ (by norm_num)
          have : min (cfg.backoffMax * 2 ^ j) cfg.backoffMax = cfg.backoffMax :=
            min_eq_right (le_mul_of_one_le_right hc h2j)
          rw [this, pow_succ]
          ring_nf

/-- One-step unfolding of the loop on a retryable outcome when the
retry budget is not exhausted: record the attempt, clean up, sleep
`min backoff backoff_max`, double the backoff capped at `backoff_max`,
and continue. -/
theorem runAux_cons_cont (cfg : Config) (env : AttemptEnv)
    (rest : List AttemptEnv) (a : Nat) (b : Rat)
    (hre : (attemptStep env).outcome.isRetryable = true)
    (hcond : ¬ (0 < cfg.retries ∧ cfg.retries ≤ a + 1)) :
    runAux cfg a b (env :: rest) =
      ({ number := a + 1, diagLogs := diagnoseGateway env.diag
       , outcome := (attemptStep env).outcome
       , watchdogResolved := (attemptStep env).watchdogResolved
       , cleanupRun := true, sleptFor := some (min b cfg.backoffMax) } ::
        (runAux cfg (a + 1) (min (b * 2) cfg.backoffMax) rest).1,
       (runAux cfg (a + 1) (min (b * 2) cfg.backoffMax) rest).2) := by
  rcases hstep : (attemptStep env).outcome with _ | e | _ | e
  · rw [hstep] at hre; simp [AttemptOutcome.isRetryable] at hre
  · rw [hstep] at hre; simp [AttemptOutcome.isRetryable] at hre
  · simp [runAux, hstep, hcond]
  · simp [runAux, hstep, hcond]

/-- One-step unfolding of the loop on a retryable outcome when
`retries_env > 0 and attempt >= retries_env` holds: record the attempt,
clean up, and raise without sleeping. -/
theorem runAux_cons_stop (cfg : Config) (env : AttemptEnv)
    (rest : List AttemptEnv) (a : Nat) (b : Rat)
    (hre : (attemptStep env).outcome.isRetryable = true)
    (hcond : 0 < cfg.retries ∧ cfg.retries ≤ a + 1) :
    runAux cfg a b (env :: rest) =
      ([{ number := a + 1, diagLogs := diagnoseGateway env.diag
        , outcome := (attemptStep env).outcome
        , watchdogResolved := (attemptStep env).watchdogResolved
        , cleanupRun := true, sleptFor := none }], .retriesExceeded) := by
  rcases hstep : (attemptStep env).outcome with _ | e | _ | e
  · rw [hstep] at hre; simp [AttemptOutcome.isRetryable] at hre
  · rw [hstep] at hre; simp [AttemptOutcome.isRetryable] at hre
  · simp [runAux, hstep, hcond]
  · simp [runAux, hstep, hcond]

/-- One-step unfolding of the loop on the success path (readiness first,
client task then returns cleanly): the loop returns at once. -/
theorem runAux_cons_success (cfg : Config) (env : AttemptEnv)
    (rest : List AttemptEnv) (a : Nat) (b : Rat)
    (hs : (attemptStep env).outcome = .success) :
    runAux cfg a b (env :: rest) =
      ([{ number := a + 1, diagLogs := diagnoseGateway env.diag
        , outcome := .success
        , watchdogResolved := (attemptStep env).watchdogResolved
        , cleanupRun := false, sleptFor := none }], .success) := by
  simp [runAux, hs]

/-- One-step unfolding of the loop on a fatal classification: the
handler re-raises, skipping cleanup, sleep, and further attempts. -/
theorem runAux_cons_fatal (cfg : Config) (env : AttemptEnv)
    (rest : List AttemptEnv) (a : Nat) (b : Rat) (e : ClientError)
    (hf : (attemptStep env).outcome = .fatal e) :
    runAux cfg a b (env :: rest) =
      ([{ number := a + 1, diagLogs := diagnoseGateway env.diag
        , outcome := .fatal e
        , watchdogResolved := (attemptStep env).watchdogResolved
        , cleanupRun := false, sleptFor := none }], .propagated e) := by
  simp [runAux, hf]

/-- With a positive retry bound, a loop entered with `attempt = a < R`
performs at most `R - a` further attempts. -/
theorem runAux_length_le (cfg : Config) (hpos : 0 < cfg.retries) :
    ∀ (envs : List AttemptEnv) (a : Nat) (b : Rat), a < cfg.retries →
      (runAux cfg a b envs).1.length ≤ cfg.retries - a := by
  intro envs
  induction envs with
  | nil => intro a b ha; simp [runAux]
  | cons env rest ih =>
    intro a b ha
    rcases hstep : (attemptStep env).outcome with _ | e | _ | e
    · simp [runAux, hstep]; omega
    · simp [runAux, hstep]; omega
    · by_cases hcond : 0 < cfg.retries ∧ cfg.retries ≤ a + 1
      · simp [runAux, hstep, hcond]; omega
      · simp [runAux, hstep, hcond]
        have h1 : a + 1 < cfg.retries := by omega
        have := ih (a + 1) (min (b * 2) cfg.backoffMax) h1
        omega
    · by_cases hcond : 0 < cfg.retries ∧ cfg.retries ≤ a + 1
      · simp [runAux, hstep, hcond]; omega
      · simp [runAux, hstep, hcond]
        have h1 : a + 1 < cfg.retries := by omega
        have := ih (a + 1) (min (b * 2) cfg.backoffMax) h1
        omega

/-- With a positive retry bound and retryable failures filling exactly
the remaining attempt budget, the loop raises
`RuntimeError("Exceeded DISCORD_CONNECT_RETRIES")` right after the last
failure, with no backoff sleep after the last attempt. -/
theorem runAux_retryable_exhaust (cfg : Config) (hpos : 0 < cfg.retries) :
    ∀ (envs : List AttemptEnv) (a : Nat) (b : Rat),
      a + envs.length = cfg.retries → a < cfg.retries →
      (∀ x ∈ envs, isRetryableEnv x) →
      (runAux cfg a b envs).2 = .retriesExceeded ∧
      (runAux cfg a b envs).1.length = envs.length ∧
      ((runAux cfg a b envs).1[envs.length - 1]?).map
        (fun r => r.sleptFor) = some none := by
  intro envs
  induction envs with
  | nil => intro a b hlen ha hre; simp at hlen; omega
  | cons env rest ih =>
    intro a b hlen ha hre
    have henv : (attemptStep env).outcome.isRetryable = true :=
      hre env (by simp)
    rcases rest with _ | ⟨env2, rest2⟩
    · have hcond : 0 < cfg.retries ∧ cfg.retries ≤ a + 1 := by
        simp at hlen; omega
      rw [runAux_cons_stop cfg env [] a b henv hcond]
      simp
    · have hcond : ¬ (0 < cfg.retries ∧ cfg.retries ≤ a + 1) := by
        simp at hlen; omega
      have hih := ih (a + 1) (min (b * 2) cfg.backoffMax)
        (by simp at hlen ⊢; omega) (by simp at hlen; omega)
        (fun x hx => hre x (by simp [hx]))
      rw [runAux_cons_cont cfg env (env2 :: rest2) a b henv hcond]
      have h3 := hih.2.2
      simp at h3 ⊢
      exact ⟨hih.1, hih.2.1, h3⟩

/-- With `retries = 0` (unbounded) and only retryable failures, the loop
never terminates: it consumes every failure, emits one record per
attempt, and is still running afterwards. -/
theorem runAux_unbounded (cfg : Config) (h0 : cfg.retries = 0) :
    ∀ (envs : List AttemptEnv) (a : Nat) (b : Rat),
      (∀ x ∈ envs, isRetryableEnv x) →
      (runAux cfg a b envs).1.length = envs.length ∧
      ∃ bf, (runAux cfg a b envs).2 = .stillRunning (a + envs.length) bf := by
  intro envs
  induction envs with
  | nil => intro a b hre; simp [runAux]
  | cons env rest ih =>
    intro a b hre
    have henv : (attemptStep env).outcome.isRetryable = true :=
      hre env (by simp)
    have hcond : ¬ (0 < cfg.retries ∧ cfg.retries ≤ a + 1) := by
      simp [h0]
    have hih := ih (a + 1) (min (b * 2) cfg.backoffMax)
      (fun x hx => hre x (by simp [hx]))
    rw [runAux_cons_cont cfg env rest a b henv hcond]
    refine ⟨by simp [hih.1], ?_⟩
    rcases hih.2 with ⟨bf, hbf⟩
    refine ⟨bf, ?_⟩
    have harith : a + 1 + rest.length = a + (rest.length + 1) := by omega
    simp [hbf, harith]

/-- With `retries = 0` and `n` retryable failures followed by anything,
the record of attempt `n + 1` exists and carries that attempt number:
attempt `n + 1` really begins. -/
theorem runAux_next_attempt (cfg : Config) (h0 : cfg.retries = 0) :
    ∀ (envs : List AttemptEnv) (a : Nat) (b : Rat) (e : AttemptEnv)
      (rest : List AttemptEnv),
      (∀ x ∈ envs, isRetryableEnv x) →
      ((runAux cfg a b (envs ++ e :: rest)).1[envs.length]?).map
        (fun r => r.number) = some (a + envs.length + 1) := by
  intro envs
  induction envs with
  | nil =>
    intro a b e rest hre
    simpa using runAux_head_number cfg e rest a b
  | cons env tail ih =>
    intro a b e rest hre
    have henv : (attemptStep env).outcome.isRetryable = true :=
      hre env (by simp)
    have hcond : ¬ (0 < cfg.retries ∧ cfg.retries ≤ a + 1) := by
      simp [h0]
    have hih := ih (a + 1) (min (b * 2) cfg.backoffMax) e rest
      (fun x hx => hre x (by simp [hx]))
    rw [List.cons_append,
      runAux_cons_cont cfg env (tail ++ e :: rest) a b henv hcond]
    have harith : a + 1 + tail.length + 1 = a + (tail.length + 1) + 1 := by
      omega
    simp only [List.length_cons, List.getElem?_cons_succ]
    rw [← harith]
    exact hih

/- ------------------------------------------------------------------
Claim theorems.
------------------------------------------------------------------- -/

/-- C1: in every run of the supervisor loop with base backoff 2 and a
nonnegative configured ceiling, the k-th backoff sleep (the sleep
recorded for the attempt at index `k - 1`) equals
`min (2 * 2 ^ (k - 1)) backoff_max`. -/
theorem backoff_sleep_formula (cfg : Config) (hc : 0 ≤ cfg.backoffMax)
    (envs : List AttemptEnv) (k : Nat) (hk : 1 ≤ k)
    (rec : AttemptRecord) (d : Rat)
    (h1 : (run cfg envs).1[k - 1]? = some rec)
    (h2 : rec.sleptFor = some d) :
    d = min (2 * 2 ^ (k - 1)) cfg.backoffMax :=
  runAux_sleep_eq cfg hc envs 0 2 (k - 1) rec d h1 h2

/-- Witness for C1: with ceiling 60 and two timed-out attempts, the
second sleep is `4 = min (2 * 2 ^ 1) 60`. -/
theorem backoff_sleep_formula_witness :
    (0:Rat) ≤ 60 ∧ (1:Nat) ≤ 2 ∧
    (run ⟨0, 60⟩ [eTO, eTO]).1[2 - 1]? =
      some { number := 2, diagLogs := diagnoseGateway dOK
           , outcome := .retryTimeout, watchdogResolved := false
           , cleanupRun := true, sleptFor := some 4 } ∧
    (4:Rat) = min (2 * 2 ^ (2 - 1)) (60:Rat) := by
  have h1 : (run ⟨0, 60⟩ [eTO, eTO]).1[2 - 1]? =
      some { number := 2, diagLogs := diagnoseGateway dOK
           , outcome := .retryTimeout, watchdogResolved := false
           , cleanupRun := true, sleptFor := some 4 } := by
    norm_num [run, runAux, eTO, attemptStep, classify, min_def]
  exact ⟨by norm_num, by norm_num, h1,
    backoff_sleep_formula ⟨0, 60⟩ (by norm_num) [eTO, eTO] 2 (by norm_num)
      _ 4 h1 rfl⟩

/-- C2: the code violates the claim that the watchdog is cancelled (or
completed) on every attempt outcome.  Failing input: ready-timeout on
attempt 1 with unbounded retries.  The timeout leaves the watchdog task
pending — the cleanup block cancels only `start_task` — and attempt 2
begins with the watchdog of attempt 1 still alive. -/
theorem watchdog_leak_on_timeout :
    ((run ⟨0, 60⟩ [eTO, eTO]).1[0]?).map
      (fun r => (r.outcome, r.watchdogResolved)) =
      some (.retryTimeout, false) ∧
    (run ⟨0, 60⟩ [eTO, eTO]).1.length = 2 := by
  norm_num [run, runAux, eTO, attemptStep, classify, min_def]

/-- C3: with `max_retries = R > 0`, every run performs at most `R`
attempts; and on any sequence of `R` retryable failures the run raises
the fatal retries-exceeded error with no backoff sleep after the `R`-th
failure. -/
theorem retries_bound_and_fatal (cfg : Config) (R : Nat)
    (hR : cfg.retries = R) (h0 : 0 < R) :
    (∀ envs : List AttemptEnv, (run cfg envs).1.length ≤ R) ∧
    (∀ envs : List AttemptEnv, envs.length = R →
      (∀ x ∈ envs, isRetryableEnv x) →
      (run cfg envs).2 = .retriesExceeded ∧
      (run cfg envs).1.length = R ∧
      ((run cfg envs).1[R - 1]?).map (fun r => r.sleptFor) = some none) := by
  subst hR
  constructor
  · intro envs
    have h := runAux_length_le cfg h0 envs 0 2 h0
    simpa using h
  · intro envs hlen hre
    have h := runAux_retryable_exhaust cfg h0 envs 0 2 (by omega) h0 hre
    rw [hlen] at h
    exact h

/-- Witness for C3: retries 2, two timed-out attempts. -/
theorem retries_bound_and_fatal_witness :
    (⟨2, 60⟩ : Config).retries = 2 ∧ 0 < 2 ∧
    (run ⟨2, 60⟩ [eTO, eTO]).1.length ≤ 2 ∧
    (run ⟨2, 60⟩ [eTO, eTO]).2 = .retriesExceeded := by
  have h := retries_bound_and_fatal ⟨2, 60⟩ 2 rfl (by norm_num)
  exact ⟨rfl, by norm_num, h.1 [eTO, eTO],
    (h.2 [eTO, eTO] (by simp) (by decide)).1⟩

/-- C4: when the client task raises `discord.LoginFailure`, at any loop
state, the supervisor makes no further attempt, performs no backoff
sleep, and propagates exactly that error. -/
theorem login_failure_fatal (cfg : Config) (a : Nat) (b : Rat)
    (env : AttemptEnv) (rest : List AttemptEnv)
    (h : (∃ rd, env.race = .startFirst (some .loginFailure) rd) ∨
         env.race = .readyFirst (some .loginFailure)) :
    (runAux cfg a b (env :: rest)).1.length = 1 ∧
    (runAux cfg a b (env :: rest)).2 = .propagated .loginFailure ∧
    ((runAux cfg a b (env :: rest)).1[0]?).map (fun r => r.sleptFor) =
      some none := by
  have hf : (attemptStep env).outcome = .fatal .loginFailure := by
    rcases h with ⟨rd, h⟩ | h <;> simp [attemptStep, h, classify]
  rw [runAux_cons_fatal cfg env rest a b .loginFailure hf]
  simp

/-- Witness for C4: a first-attempt login failure. -/
theorem login_failure_fatal_witness :
    eLogin.race = .startFirst (some .loginFailure) false ∧
    (run ⟨0, 60⟩ [eLogin]).2 = .propagated .loginFailure := by
  exact ⟨rfl, (login_failure_fatal ⟨0, 60⟩ 0 2 eLogin []
    (Or.inl ⟨false, rfl⟩)).2.1⟩

/-- C5 counterexample: readiness is observed first, then the client task
raises a generic exception; the supervisor does not return that outcome
as its terminal result — it cleans up, sleeps, and starts attempt 2,
contradicting the claim that no further attempt starts. -/
theorem ready_then_crash_retries :
    (run ⟨0, 60⟩ [eReadyBoom, eTO]).1.length = 2 ∧
    (run ⟨0, 60⟩ [eReadyBoom, eTO]).2 = .stillRunning 2 8 := by
  norm_num [run, runAux, eReadyBoom, eTO, attemptStep, classify,
    earlyStopMsg, min_def]

/-- C5 amended: when the watchdog completes first, the watchdog is
resolved and the supervisor blocks on the client task; a clean client
return is the terminal success outcome with no further attempt, while a
client exception is classified by the same handler chain as any attempt
failure (fatal classes propagate, the rest re-enter the retry policy). -/
theorem ready_first_outcome (cfg : Config) (a : Nat) (b : Rat)
    (env : AttemptEnv) (rest : List AttemptEnv) :
    (env.race = .readyFirst none →
      (runAux cfg a b (env :: rest)).2 = .success ∧
      (runAux cfg a b (env :: rest)).1.length = 1 ∧
      ((runAux cfg a b (env :: rest)).1[0]?).map
        (fun r => (r.outcome, r.watchdogResolved)) =
        some (.success, true)) ∧
    (∀ e : ClientError, env.race = .readyFirst (some e) →
      (attemptStep env).outcome = classify e ∧
      (attemptStep env).watchdogResolved = true) := by
  constructor
  · intro h
    have hs : attemptStep env =
        { outcome := .success, watchdogResolved := true } := by
      simp [attemptStep, h]
    rw [runAux_cons_success cfg env rest a b (by rw [hs])]
    simp [hs]
  · intro e h
    simp [attemptStep, h]

/-- Witness for C5: readiness observed, clean client return. -/
theorem ready_first_outcome_witness :
    eReadyOK.race = .readyFirst none ∧
    (run ⟨0, 60⟩ [eReadyOK]).2 = .success ∧
    (run ⟨0, 60⟩ [eReadyOK]).1.length = 1 := by
  have h := (ready_first_outcome ⟨0, 60⟩ 0 2 eReadyOK []).1 rfl
  exact ⟨rfl, h.1, h.2.1⟩

/-- C6 counterexample: on a fatal outcome (login failure) the handler
re-raises before the cleanup block, so neither `client.close()` nor
`start_task.cancel()` runs, contradicting the claim that cleanup runs on
every non-success outcome including fatal ones. -/
theorem fatal_skips_cleanup_cex :
    ((run ⟨0, 60⟩ [eLogin]).1[0]?).map
      (fun r => (r.outcome, r.cleanupRun)) =
      some (.fatal .loginFailure, false) ∧
    (run ⟨0, 60⟩ [eLogin]).2 = .propagated .loginFailure := by
  norm_num [run, runAux, eLogin, attemptStep, classify]

/-- C6 amended: the best-effort cleanup (close the client, cancel the
client task, errors swallowed) runs exactly on the retryable non-success
outcomes; fatal outcomes propagate without it, and the success path
never reaches it. -/
theorem cleanup_iff_retryable (cfg : Config) (envs : List AttemptEnv)
    (rec : AttemptRecord) (h : rec ∈ (run cfg envs).1) :
    rec.cleanupRun = true ↔ rec.outcome.isRetryable = true :=
  runAux_cleanup_iff cfg envs 0 2 rec h

/-- Witness for C6: the timed-out attempt record has cleanup run and a
retryable outcome. -/
theorem cleanup_iff_retryable_witness :
    ({ number := 1, diagLogs := diagnoseGateway dOK,
       outcome := AttemptOutcome.retryTimeout, watchdogResolved := false,
       cleanupRun := true, sleptFor := some (2:Rat) } : AttemptRecord) ∈
      (run ⟨0, 60⟩ [eTO]).1 ∧
    ((true = true) ↔ AttemptOutcome.retryTimeout.isRetryable = true) := by
  have hmem : ({ number := 1, diagLogs := diagnoseGateway dOK,
                 outcome := AttemptOutcome.retryTimeout,
                 watchdogResolved := false,
                 cleanupRun := true,
                 sleptFor := some (2:Rat) } : AttemptRecord) ∈
      (run ⟨0, 60⟩ [eTO]).1 := by
    norm_num [run, runAux, eTO, attemptStep, classify, min_def]
  exact ⟨hmem, cleanup_iff_retryable ⟨0, 60⟩ [eTO] _ hmem⟩

/-- C7: the diagnostics probe is total (it never raises: its type
returns a plain log list), every sub-probe runs and logs no matter which
sub-probes fail, and the diagnostics results never change the attempt
classification or the terminal result of the loop iteration. -/
theorem diagnostics_total_and_inert :
    (∀ env : DiagEnv, (diagnoseGateway env).map (fun l => l.tag) =
      ["DNS gateway.discord.gg", "DNS discord.com",
       "TCP gateway.discord.gg:443", "GET /gateway"]) ∧
    (∀ (e : AttemptEnv) (d1 d2 : DiagEnv),
      attemptStep { e with diag := d1 } = attemptStep { e with diag := d2 }) ∧
    (∀ (cfg : Config) (a : Nat) (b : Rat) (env : AttemptEnv)
      (rest : List AttemptEnv) (d1 d2 : DiagEnv),
      (runAux cfg a b ({ env with diag := d1 } :: rest)).2 =
      (runAux cfg a b ({ env with diag := d2 } :: rest)).2) := by
  refine ⟨fun env => rfl, fun e d1 d2 => rfl, ?_⟩
  intro cfg a b env rest d1 d2
  have hstep : attemptStep { env with diag := d1 } =
      attemptStep { env with diag := d2 } := rfl
  rcases ho : (attemptStep { env with diag := d1 }).outcome
    with _ | e1 | _ | e1
  · rw [runAux_cons_success cfg _ rest a b ho,
      runAux_cons_success cfg _ rest a b (hstep ▸ ho)]
  · rw [runAux_cons_fatal cfg _ rest a b e1 ho,
      runAux_cons_fatal cfg _ rest a b e1 (hstep ▸ ho)]
  · have hre : (attemptStep { env with diag := d1 }).outcome.isRetryable
        = true := by rw [ho]; rfl
    by_cases hcond : 0 < cfg.retries ∧ cfg.retries ≤ a + 1
    · rw [runAux_cons_stop cfg _ rest a b hre hcond,
        runAux_cons_stop cfg _ rest a b (hstep ▸ hre) hcond]
    · rw [runAux_cons_cont cfg _ rest a b hre hcond,
        runAux_cons_cont cfg _ rest a b (hstep ▸ hre) hcond]
  · have hre : (attemptStep { env with diag := d1 }).outcome.isRetryable
        = true := by rw [ho]; rfl
    by_cases hcond : 0 < cfg.retries ∧ cfg.retries ≤ a + 1
    · rw [runAux_cons_stop cfg _ rest a b hre hcond,
        runAux_cons_stop cfg _ rest a b (hstep ▸ hre) hcond]
    · rw [runAux_cons_cont cfg _ rest a b hre hcond,
        runAux_cons_cont cfg _ rest a b (hstep ▸ hre) hcond]

/-- C8: with `max_retries = 0`, after any `n` consecutive retryable
failures the loop is still running with `n` attempts behind it, and
whenever an `(n+1)`-th environment exists, attempt `n + 1` begins. -/
theorem unbounded_retries_continue (cfg : Config) (h0 : cfg.retries = 0)
    (n : Nat) (envs : List AttemptEnv) (hlen : envs.length = n)
    (hre : ∀ x ∈ envs, isRetryableEnv x)
    (e : AttemptEnv) (rest : List AttemptEnv) :
    (∃ bf, (run cfg envs).2 = .stillRunning n bf) ∧
    ((run cfg (envs ++ e :: rest)).1[n]?).map (fun r => r.number) =
      some (n + 1) := by
  subst hlen
  constructor
  · have h := (runAux_unbounded cfg h0 envs 0 2 hre).2
    simpa using h
  · have h := runAux_next_attempt cfg h0 envs 0 2 e rest hre
    simpa using h

/-- Witness for C8: two timeouts, then a third attempt begins. -/
theorem unbounded_retries_continue_witness :
    (⟨0, 60⟩ : Config).retries = 0 ∧
    ((run ⟨0, 60⟩ [eTO, eTO, eTO]).1[2]?).map (fun r => r.number) =
      some 3 := by
  have h := unbounded_retries_continue ⟨0, 60⟩ rfl 2 [eTO, eTO] rfl
    (by decide) eTO []
  exact ⟨rfl, by simpa using h.2⟩

/-- C9: a client task that finishes cleanly before READY is classified
as the retryable unexpected-early-stop failure (the `RuntimeError` of
line 147), not as success and not as a propagated error, and the
cleanup and retry policy follow. -/
theorem early_stop_retryable (cfg : Config) (a : Nat) (b : Rat)
    (env : AttemptEnv) (rest : List AttemptEnv) (rd : Bool)
    (h : env.race = .startFirst none rd) :
    (attemptStep env).outcome = .retryOther (.runtimeErr earlyStopMsg) ∧
    ((runAux cfg a b (env :: rest)).1[0]?).map
      (fun r => (r.outcome, r.cleanupRun)) =
      some (.retryOther (.runtimeErr earlyStopMsg), true) := by
  have ho : (attemptStep env).outcome =
      .retryOther (.runtimeErr earlyStopMsg) := by
    simp [attemptStep, h, classify]
  refine ⟨ho, ?_⟩
  have hre : (attemptStep env).outcome.isRetryable = true := by
    rw [ho]; rfl
  by_cases hcond : 0 < cfg.retries ∧ cfg.retries ≤ a + 1
  · rw [runAux_cons_stop cfg env rest a b hre hcond]
    simp [ho]
  · rw [runAux_cons_cont cfg env rest a b hre hcond]
    simp [ho]

/-- Witness for C9: a clean early stop on the first attempt. -/
theorem early_stop_retryable_witness :
    eEarly.race = .startFirst none false ∧
    (attemptStep eEarly).outcome =
      .retryOther (.runtimeErr earlyStopMsg) := by
  exact ⟨rfl, (early_stop_retryable ⟨0, 60⟩ 0 2 eEarly [] false rfl).1⟩

/-- C10: the force-IPv4 override fires exactly when the lowercased value
of `DISCORD_FORCE_IPV4` is one of `"1"`, `"true"`, `"yes"`, `"on"`; the
unset default `"0"` and every other value leave the resolver unchanged. -/
theorem force_ipv4_iff :
    (∀ s : String, maybeForceIPv4 (some s) .system = .ipv4Only ↔
      lowerStr s ∈ truthyValues) ∧
    maybeForceIPv4 none .system = .system ∧
    (∀ (s : String) (r : Resolver), lowerStr s ∉ truthyValues →
      maybeForceIPv4 (some s) r = r) := by
  refine ⟨?_, by decide, ?_⟩
  · intro s
    unfold maybeForceIPv4
    split <;> simp_all
  · intro s r h
    simp [maybeForceIPv4, h]

/-- Witness for C10: `"TRUE"` fires the override, `"hello"` leaves the
resolver alone. -/
theorem force_ipv4_iff_witness :
    lowerStr "hello" ∉ truthyValues ∧
    maybeForceIPv4 (some "hello") .system = .system ∧
    (maybeForceIPv4 (some "TRUE") .system = .ipv4Only ↔
      lowerStr "TRUE" ∈ truthyValues) := by
  exact ⟨by decide, force_ipv4_iff.2.2 "hello" .system (by decide),
    force_ipv4_iff.1 "TRUE"⟩

end SHBot
